import Mathlib

/-!
Verification of the Mycelial signal runtime (C sources under
src/runtime/c) against its natural-language specification.

The C code is shallowly embedded: machine integers become Nat with
explicit reductions modulo 2^16 / 2^32 / 2^64 at the points where the
C code can overflow; heap pointers become Nat addresses (0 = NULL)
into explicit stores (Mem for signals, QMem for mailboxes); the heap
allocator itself is abstracted as always succeeding (allocation
failure paths are not exercised by any claim); the RDTSC timestamp is
a parameter. The header dispatch.h is not part of the sources (only
dispatch.c and its callers are); the flag bits DISPATCH_FLAG_ACTIVE
and DISPATCH_FLAG_HAS_GUARD that it defines are modelled as the
booleans active and has_guard on a dispatch entry, and the dispatch
status codes as an inductive type, faithful to their use in
dispatch.c.
-/

namespace Mycelial

/-! ## Configuration constants (signal.h) -/

def U16 : Nat := 65536
def U32 : Nat := 4294967296
def U64 : Nat := 18446744073709551616

def MAX_PAYLOAD_SIZE : Nat := 64 * 1024

def SIGNAL_FLAG_OWNS_PAYLOAD : Nat := 1
def SIGNAL_FLAG_HEAP_ALLOCATED : Nat := 2
def SIGNAL_FLAG_PROCESSED : Nat := 4
def SIGNAL_FLAG_BROADCAST : Nat := 8

def QUEUE_FLAG_ACTIVE : Nat := 1
def QUEUE_FLAG_OVERFLOW : Nat := 2

def SIGNAL_OK : Nat := 0
def SIGNAL_ERR_QUEUE_FULL : Nat := 1
def SIGNAL_ERR_QUEUE_EMPTY : Nat := 2
def SIGNAL_ERR_NULL_POINTER : Nat := 3
def SIGNAL_ERR_ALLOC_FAILED : Nat := 4
def SIGNAL_ERR_PAYLOAD_TOO_LARGE : Nat := 5
def SIGNAL_ERR_NO_ROUTE : Nat := 6

/-! ## Pointers and stores

C pointers are Nat addresses; 0 is NULL. A store maps an address to
the object it holds, none meaning unallocated (or freed) storage. -/

abbrev Ptr := Nat

/-! ## Signal (signal.h struct Signal, signal.c)

The payload_ptr plus the bytes it points at are modelled as the list
of copied payload bytes; payload_ptr == NULL corresponds to an empty
list together with payload_size = 0. -/

structure Signal where
  frequency_id : Nat
  source_agent_id : Nat
  flags : Nat
  ref_count : Nat
  payload : List Nat
  payload_size : Nat
  payload_capacity : Nat
  timestamp : Nat
  deriving DecidableEq

abbrev Mem := Ptr → Option Signal

def memUpdate (m : Mem) (p : Ptr) (v : Option Signal) : Mem :=
  fun q => if q = p then v else m q

/-! ## Bit utilities (signal.h static inline helpers) -/

def is_power_of_two (x : Nat) : Bool :=
  x ≠ 0 && (x &&& (x - 1)) = 0

def next_power_of_two (x : Nat) : Nat :=
  let x := (x + (U32 - 1)) % U32
  let x := x ||| (x >>> 1)
  let x := x ||| (x >>> 2)
  let x := x ||| (x >>> 4)
  let x := x ||| (x >>> 8)
  let x := x ||| (x >>> 16)
  (x + 1) % U32

def fnv1a_hash (agent_id freq_id : Nat) : Nat :=
  let hash : Nat := 2166136261
  let hash := ((hash ^^^ agent_id) * 16777619) % U32
  ((hash ^^^ freq_id) * 16777619) % U32

/-! ## Signal allocation and lifecycle (signal.c) -/

/-- Function signal_alloc: header-only signal, all fields defaulted; the
heap allocation is abstracted (always succeeds) and the RDTSC
timestamp is the parameter ts. -/
def signal_alloc (ts : Nat) : Signal :=
  { frequency_id := 0
    source_agent_id := 0
    flags := SIGNAL_FLAG_HEAP_ALLOCATED
    ref_count := 1
    payload := []
    payload_size := 0
    payload_capacity := 0
    timestamp := ts }

/-- Function signal_ref on the pointed-to signal value: a uint16_t
increment, wrapping modulo 2^16. -/
def signal_ref (s : Signal) : Signal :=
  { s with ref_count := (s.ref_count + 1) % U16 }

/-- Function signal_ref at the pointer level: no-op on NULL; a valid
pointer has its referent updated (a dangling pointer would be C
undefined behaviour and is modelled as a no-op). -/
def signal_ref_at (m : Mem) (p : Ptr) : Mem :=
  if p = 0 then m
  else
    match m p with
    | none => m
    | some s => memUpdate m p (some (signal_ref s))

/-- Function signal_free: decrement the reference count (when
positive); when the count is then zero, release the payload (when
owned) and the header (when heap allocated). A released header leaves
none at the address. -/
def signal_free (m : Mem) (p : Ptr) : Mem :=
  if p = 0 then m
  else
    match m p with
    | none => m
    | some s =>
      let s1 := if s.ref_count > 0 then { s with ref_count := s.ref_count - 1 } else s
      if s1.ref_count > 0 then memUpdate m p (some s1)
      else
        let s2 :=
          if s1.flags &&& SIGNAL_FLAG_OWNS_PAYLOAD ≠ 0 ∧ s1.payload ≠ [] then
            { s1 with payload := [] }
          else s1
        if s2.flags &&& SIGNAL_FLAG_HEAP_ALLOCATED ≠ 0 then memUpdate m p none
        else memUpdate m p (some s2)

/-- Function signal_create: reject payload_size > MAX_PAYLOAD_SIZE,
then fill a fresh signal; when a payload pointer is given and the size
is positive, copy payload_size bytes into an 8-byte-aligned buffer and
mark ownership. The caller's payload buffer is the list p (none
modelling a NULL payload pointer). -/
def signal_create (frequency_id source_agent_id : Nat)
    (payload : Option (List Nat)) (payload_size : Nat) (ts : Nat) :
    Option Signal :=
  if payload_size > MAX_PAYLOAD_SIZE then none
  else
    let sig := signal_alloc ts
    let sig := { sig with
      frequency_id := frequency_id % U16
      source_agent_id := source_agent_id % U16 }
    match payload with
    | some p =>
      if payload_size > 0 then
        let capacity := (payload_size + 7) &&& 4294967288
        some { sig with
          payload := p.take payload_size
          payload_size := payload_size
          payload_capacity := capacity
          flags := sig.flags ||| SIGNAL_FLAG_OWNS_PAYLOAD }
      else some sig
    | none => some sig

/-! ## Signal queue (ring buffer, signal.c)

The buffer of Signal pointers is a function from slot index to stored
pointer (0 = NULL / cleared slot). All uint32 fields wrap modulo
2^32 where the C code increments them. -/

structure SignalQueue where
  buffer : Nat → Ptr
  capacity : Nat
  mask : Nat
  head : Nat
  tail : Nat
  count : Nat
  total_enqueued : Nat
  total_dequeued : Nat
  dropped_count : Nat
  owner_agent_id : Nat
  flags : Nat
  reserved : Nat

/-- Function signal_queue_create: round the capacity up to a power of
two, then a fresh descriptor; mask is the uint32 value capacity - 1. -/
def signal_queue_create (capacity : Nat) : SignalQueue :=
  let capacity := if is_power_of_two capacity then capacity else next_power_of_two capacity
  { buffer := fun _ => 0
    capacity := capacity
    mask := (capacity + (U32 - 1)) % U32
    head := 0
    tail := 0
    count := 0
    total_enqueued := 0
    total_dequeued := 0
    dropped_count := 0
    owner_agent_id := 0
    flags := QUEUE_FLAG_ACTIVE
    reserved := 0 }

/-- Function signal_queue_enqueue. The queue is passed by value (its
pointer being non-null); the signal argument is a pointer, checked
against NULL. Returns the updated signal store, the updated queue and
the status code. -/
def signal_queue_enqueue (m : Mem) (q : SignalQueue) (sig : Ptr) :
    Mem × SignalQueue × Nat :=
  if sig = 0 then (m, q, SIGNAL_ERR_NULL_POINTER)
  else if q.count ≥ q.capacity then
    (m, { q with
      dropped_count := (q.dropped_count + 1) % U32
      flags := q.flags ||| QUEUE_FLAG_OVERFLOW }, SIGNAL_ERR_QUEUE_FULL)
  else
    let index := q.tail &&& q.mask
    (signal_ref_at m sig,
     { q with
       buffer := fun j => if j = index then sig else q.buffer j
       tail := (q.tail + 1) % U32
       count := (q.count + 1) % U32
       total_enqueued := (q.total_enqueued + 1) % U32 }, SIGNAL_OK)

/-- Function signal_queue_dequeue: on an empty queue return the NULL
pointer and leave the queue untouched; otherwise read the head slot,
clear it, advance head, decrement count, count the dequeue. -/
def signal_queue_dequeue (q : SignalQueue) : SignalQueue × Ptr :=
  if q.count = 0 then (q, 0)
  else
    let index := q.head &&& q.mask
    let sig := q.buffer index
    ({ q with
       buffer := fun j => if j = index then 0 else q.buffer j
       head := (q.head + 1) % U32
       count := q.count - 1
       total_dequeued := (q.total_dequeued + 1) % U32 }, sig)

/-! ## Sequences of mailbox operations (for the lifetime invariant) -/

inductive QueueOp where
  | enqueue (sig : Ptr)
  | dequeue
  deriving DecidableEq

def applyQueueOp (st : Mem × SignalQueue) (op : QueueOp) : Mem × SignalQueue :=
  match op with
  | .enqueue sig =>
    let r := signal_queue_enqueue st.1 st.2 sig
    (r.1, r.2.1)
  | .dequeue =>
    let r := signal_queue_dequeue st.2
    (st.1, r.1)

def runQueueOps (m : Mem) (q : SignalQueue) (ops : List QueueOp) : Mem × SignalQueue :=
  ops.foldl applyQueueOp (m, q)

/-! ## Dispatch table (dispatch.c)

Agent state sits behind a void pointer in C and is mutated in place by
handlers; it is modelled as an abstract value of type AgentState that
a handler transforms, a handler returning its int status together with
the new state. Guards are modelled as pure int-valued predicates (the
runtime only reads their return value). dispatch.h is absent from the
sources; its entry flag bits appear here as the booleans active and
has_guard, and its status codes as the inductive DispatchCode, exactly
as dispatch.c uses them. -/

abbrev AgentState := Nat

abbrev Handler := AgentState → Signal → Int × AgentState
abbrev Guard := AgentState → Signal → Int

inductive DispatchCode where
  | ok
  | null_pointer
  | no_handler
  | guard_failed
  | handler_failed
  | alloc_failed
  deriving DecidableEq

structure DispatchEntry where
  frequency_id : Nat
  active : Bool
  has_guard : Bool
  handler : Handler
  guard : Option Guard

structure DispatchTable where
  entries : List DispatchEntry
  capacity : Nat
  default_handler : Option Handler
  agent_state : AgentState
  agent_id : Nat
  lookup_count : Nat
  hit_count : Nat
  miss_count : Nat

/-- Function dispatch_lookup_entry: linear scan for the first active
entry whose frequency matches. -/
def dispatch_lookup_entry (t : DispatchTable) (frequency_id : Nat) :
    Option DispatchEntry :=
  t.entries.find? (fun e => e.active && e.frequency_id == frequency_id)

/-- Function dispatch_invoke_with_state. NULL table or signal yields
the null_pointer code; otherwise the lookup counter is bumped, the
entry (or the default handler) selected, the guard consulted, and the
handler run. Returns the status code, the agent state after any
handler ran, and the updated table (unchanged when NULL was passed). -/
def dispatch_invoke_with_state (t? : Option DispatchTable)
    (st : AgentState) (s? : Option Signal) :
    DispatchCode × AgentState × Option DispatchTable :=
  match t?, s? with
  | none, _ => (.null_pointer, st, t?)
  | some _, none => (.null_pointer, st, t?)
  | some t, some s =>
    let t := { t with lookup_count := (t.lookup_count + 1) % U32 }
    match dispatch_lookup_entry t s.frequency_id with
    | none =>
      let t := { t with miss_count := (t.miss_count + 1) % U32 }
      match t.default_handler with
      | some dh =>
        let r := dh st s
        if r.1 ≠ 0 then (.handler_failed, r.2, some t)
        else (.ok, r.2, some t)
      | none => (.no_handler, st, some t)
    | some e =>
      let t := { t with hit_count := (t.hit_count + 1) % U32 }
      let guardRejected : Bool :=
        if e.has_guard then
          match e.guard with
          | some g => decide (g st s = 0)
          | none => false
        else false
      if guardRejected then (.guard_failed, st, some t)
      else
        let r := e.handler st s
        if r.1 ≠ 0 then (.handler_failed, r.2, some t)
        else (.ok, r.2, some t)

/-- Function dispatch_invoke: reads the cached agent_state field of
the table before any NULL check, so a NULL table is a null-pointer
dereference — modelled as the none outcome (no defined result). -/
def dispatch_invoke (t? : Option DispatchTable) (s? : Option Signal) :
    Option (DispatchCode × AgentState × Option DispatchTable) :=
  match t? with
  | none => none
  | some t => some (dispatch_invoke_with_state (some t) t.agent_state s?)

/-! ## Agent registry (signal.h struct Agent, routing.c)

An agent's input queue is a pointer into the mailbox store QMem; its
dispatch table pointer is embedded as an optional value (none =
NULL). -/

abbrev QMem := Ptr → Option SignalQueue

structure Agent where
  agent_id : Nat
  agent_type : Nat
  state_ptr : AgentState
  input_queue : Ptr
  dispatch_table : Option DispatchTable
  flags : Nat
  signal_count : Nat

structure AgentRegistry where
  agents : List (Option Agent)
  count : Nat
  capacity : Nat

/-- Function agent_registry_get: NULL when the id is out of range,
otherwise the slot content. -/
def agent_registry_get (registry : AgentRegistry) (agent_id : Nat) : Option Agent :=
  if agent_id ≥ registry.capacity then none
  else registry.agents.getD agent_id none

/-- Function agent_get_queue: the agent's input queue pointer, NULL
when the agent is not found. -/
def agent_get_queue (registry : AgentRegistry) (agent_id : Nat) : Ptr :=
  match agent_registry_get registry agent_id with
  | none => 0
  | some agent => agent.input_queue

/-! ## Routing table (routing.c) -/

structure RoutingEntry where
  source_agent_id : Nat
  frequency_id : Nat
  dest_count : Nat
  flags : Nat
  dest_agent_ids : List Nat
  dest_queues : List Ptr

def emptyRoutingEntry : RoutingEntry :=
  { source_agent_id := 0, frequency_id := 0, dest_count := 0, flags := 0
    dest_agent_ids := [], dest_queues := [] }

structure RoutingTable where
  entries : List RoutingEntry
  capacity : Nat
  mask : Nat
  entry_count : Nat
  collision_count : Nat

/-- Function routing_table_create: power-of-two sized array of empty
entries (source_agent_id 0 marks an empty slot). -/
def routing_table_create (capacity : Nat) : RoutingTable :=
  let capacity := if is_power_of_two capacity then capacity else next_power_of_two capacity
  { entries := List.replicate capacity emptyRoutingEntry
    capacity := capacity
    mask := (capacity + (U32 - 1)) % U32
    entry_count := 0
    collision_count := 0 }

/-- Helper for find_slot: the do-while probe from the start slot. The
fuel (initially the capacity) bounds the walk; the loop in C revisits
the start slot after exactly capacity probes. Returns the slot index,
whether a matching entry was found, and the number of collision steps
taken. -/
def findSlotLoop (entries : List RoutingEntry) (mask sid fid start : Nat) :
    Nat → Nat → Nat → Nat × Bool × Nat
  | 0, index, coll => (index, false, coll)
  | fuel + 1, index, coll =>
    let e := entries.getD index emptyRoutingEntry
    if e.source_agent_id = 0 then (index, false, coll)
    else if e.source_agent_id = sid ∧ e.frequency_id = fid then (index, true, coll)
    else
      let index1 := (index + 1) &&& mask
      if index1 = start then (index1, false, coll + 1)
      else findSlotLoop entries mask sid fid start fuel index1 (coll + 1)

/-- Function find_slot: FNV-1a hash, masked start slot, linear
probing; the collision counter of the table is advanced by the number
of probe steps. -/
def find_slot (t : RoutingTable) (sid fid : Nat) : Nat × Bool × RoutingTable :=
  let hash := fnv1a_hash sid fid
  let start := hash &&& t.mask
  let r := findSlotLoop t.entries t.mask sid fid start t.capacity start 0
  (r.1, r.2.1, { t with collision_count := (t.collision_count + r.2.2) % U32 })

/-- Function routing_get_entry: the slot index and entry when the
probe found a match. -/
def routing_get_entry (t : RoutingTable) (sid fid : Nat) :
    Option (Nat × RoutingEntry) × RoutingTable :=
  let r := find_slot t sid fid
  if r.2.1 then (some (r.1, r.2.2.entries.getD r.1 emptyRoutingEntry), r.2.2)
  else (none, r.2.2)

/-- The mailbox-pointer resolution of one routing_broadcast
destination: take the cached pointer; when it is NULL and a registry
was supplied, look the destination agent's queue up and cache it. -/
def broadcastResolve (agents : Option AgentRegistry) (entry : RoutingEntry)
    (i : Nat) : Ptr × RoutingEntry :=
  let queue0 := entry.dest_queues.getD i 0
  match agents with
  | some reg =>
    if queue0 = 0 then
      let q := agent_get_queue reg (entry.dest_agent_ids.getD i 0)
      (q, { entry with dest_queues := entry.dest_queues.set i q })
    else (queue0, entry)
  | none => (queue0, entry)

/-- One destination step of routing_broadcast: resolve the cached
mailbox pointer (falling back to the registry and caching the
result), then enqueue the signal reference when the mailbox pointer is
non-null, counting a delivery on SIGNAL_OK. A non-null dangling
mailbox pointer would be C undefined behaviour and is modelled as no
effect. -/
def broadcastStep (agents : Option AgentRegistry) (sig : Ptr)
    (st : QMem × Mem × RoutingEntry × Nat) (i : Nat) :
    QMem × Mem × RoutingEntry × Nat :=
  let (qm, m, entry, delivered) := st
  let rq := broadcastResolve agents entry i
  if rq.1 = 0 then (qm, m, rq.2, delivered)
  else
    match qm rq.1 with
    | none => (qm, m, rq.2, delivered)
    | some q =>
      let r := signal_queue_enqueue m q sig
      let qm1 := fun p => if p = rq.1 then some r.2.1 else qm p
      if r.2.2 = SIGNAL_OK then (qm1, r.1, rq.2, delivered + 1)
      else (qm1, r.1, rq.2, delivered)

/-- Function routing_broadcast: look the route up by the signal's
origin and kind; deliver to each destination in order; after the loop
set the broadcast flag on the (shared) signal when the route has more
than one destination. Returns the stores, the table (probe statistics
and cached pointers updated) and the number of successful
deliveries. A dangling signal pointer would be C undefined behaviour
and is modelled as no effect. -/
def routing_broadcast (qm : QMem) (m : Mem) (t : RoutingTable) (sig : Ptr)
    (agents : Option AgentRegistry) : QMem × Mem × RoutingTable × Nat :=
  if sig = 0 then (qm, m, t, 0)
  else
    match m sig with
    | none => (qm, m, t, 0)
    | some s =>
      let r := routing_get_entry t s.source_agent_id s.frequency_id
      match r.1 with
      | none => (qm, m, r.2, 0)
      | some ie =>
        let st := (List.range ie.2.dest_count).foldl (broadcastStep agents sig)
          (qm, m, ie.2, 0)
        let (qm1, m1, entry1, delivered) := st
        let t1 := { r.2 with entries := r.2.entries.set ie.1 entry1 }
        let m2 :=
          if entry1.dest_count > 1 then
            match m1 sig with
            | none => m1
            | some s1 => memUpdate m1 sig (some { s1 with flags := s1.flags ||| SIGNAL_FLAG_BROADCAST })
          else m1
        (qm1, m2, t1, delivered)

/-- Modelled from the spec: the per-destination delivery outcomes of a
broadcast, written down independently so that the delivered count the
code returns can be compared with the number of destinations whose
enqueue succeeded. -/
def spec_broadcast_outcomes (agents : Option AgentRegistry) (sig : Ptr)
    (st : QMem × Mem × RoutingEntry × Nat) : List Nat → List Bool
  | [] => []
  | i :: is =>
    let st1 := broadcastStep agents sig st i
    decide (st1.2.2.2 > st.2.2.2) :: spec_broadcast_outcomes agents sig st1 is

/-! ## Tidal cycle scheduler (scheduler.c, scheduler.h) -/

def PHASE_REST : Nat := 0
def PHASE_SENSE : Nat := 1
def PHASE_ACT : Nat := 2

structure Scheduler where
  registry : AgentRegistry
  routing : RoutingTable
  current_phase : Nat
  running : Nat
  empty_cycles : Nat
  max_empty_cycles : Nat
  cycle_count : Nat
  total_signals_processed : Nat
  agents_active : Nat
  dispatch_errors : Nat
  start_timestamp : Nat
  end_timestamp : Nat

/-- Function scheduler_create (registry and routing are non-null by
typing; the heap allocation is abstracted). -/
def scheduler_create (registry : AgentRegistry) (routing : RoutingTable) : Scheduler :=
  { registry := registry
    routing := routing
    current_phase := PHASE_REST
    running := 1
    empty_cycles := 0
    max_empty_cycles := 10
    cycle_count := 0
    total_signals_processed := 0
    agents_active := 0
    dispatch_errors := 0
    start_timestamp := 0
    end_timestamp := 0 }

/-- One agent visit inside scheduler_run_cycle: skip a NULL agent slot
or a NULL input-queue pointer; otherwise enter SENSE and dequeue; when
a signal came out, enter ACT and release the caller reference with
signal_free (the dispatch_invoke call in the source is commented-out
scaffolding), counting the signal. The fold state carries the mailbox
store, the signal store, the advertised phase and the count of
processed signals. A non-null dangling queue pointer would be C
undefined behaviour and is modelled as no effect. -/
def scheduler_agent_step (reg : AgentRegistry)
    (st : QMem × Mem × Nat × Nat) (i : Nat) : QMem × Mem × Nat × Nat :=
  let (qm, m, phase, processed) := st
  match reg.agents.getD i none with
  | none => (qm, m, phase, processed)
  | some agent =>
    if agent.input_queue = 0 then (qm, m, phase, processed)
    else
      match qm agent.input_queue with
      | none => (qm, m, phase, processed)
      | some q =>
        let r := signal_queue_dequeue q
        let qm1 := fun p => if p = agent.input_queue then some r.1 else qm p
        if r.2 = 0 then (qm1, m, PHASE_SENSE, processed)
        else (qm1, signal_free m r.2, PHASE_ACT, processed + 1)

/-- Function scheduler_run_cycle: REST phase, then a walk over the
registry slots 0 .. count-1 in agent-id order, then the cycle
statistics update. Returns the stores, the updated scheduler and the
number of signals processed this cycle. -/
def scheduler_run_cycle (qm : QMem) (m : Mem) (sched : Scheduler) :
    QMem × Mem × Scheduler × Nat :=
  let st := (List.range sched.registry.count).foldl
    (scheduler_agent_step sched.registry) (qm, m, PHASE_REST, 0)
  (st.1, st.2.1,
   { sched with
     current_phase := st.2.2.1
     cycle_count := (sched.cycle_count + 1) % U64
     total_signals_processed := (sched.total_signals_processed + st.2.2.2) % U64
     agents_active :=
       if 0 < st.2.2.2 then (sched.agents_active + st.2.2.2) % U64
       else sched.agents_active
     empty_cycles := if 0 < st.2.2.2 then 0 else sched.empty_cycles + 1 },
   st.2.2.2)

/-- Function scheduler_run's while loop, with explicit fuel (the C
loop has no a-priori bound; every claim about it is proved for all
sufficiently large fuel). The error branch of the C loop (a negative
cycle result) is unreachable since the scheduler and registry are
non-null by typing. -/
def scheduler_run_loop (qm : QMem) (m : Mem) (sched : Scheduler) :
    Nat → QMem × Mem × Scheduler
  | 0 => (qm, m, sched)
  | fuel + 1 =>
    if sched.running = 0 then (qm, m, sched)
    else
      let r := scheduler_run_cycle qm m sched
      let (qm1, m1, sched1, _) := r
      if sched1.max_empty_cycles ≤ sched1.empty_cycles then (qm1, m1, sched1)
      else scheduler_run_loop qm1 m1 sched1 fuel

/-- Function scheduler_run: drive cycles until quiescence or shutdown
(the RDTSC start and end timestamps are not modelled and left
untouched); returns the final state and the total signals
processed. -/
def scheduler_run (qm : QMem) (m : Mem) (sched : Scheduler) (fuel : Nat) :
    QMem × Mem × Scheduler × Nat :=
  let r := scheduler_run_loop qm m sched fuel
  (r.1, r.2.1, r.2.2, r.2.2.total_signals_processed)

/-! ## Invariant definitions and concrete fixtures used by the claims -/

/-- Invariant maintained by every mailbox operation: the live count is
bounded by the capacity and the uint32 difference of the lifetime
counters equals the live count. -/
def queueWellFormed (q : SignalQueue) : Prop :=
  q.count ≤ q.capacity ∧ q.capacity < U32 ∧
  q.total_enqueued < U32 ∧ q.total_dequeued < U32 ∧
  (q.total_enqueued + U32 - q.total_dequeued) % U32 = q.count

/-- The mailbox state of a capacity-1 mailbox after a successful
enqueue followed by a rejected (dropped) one. -/
def overflowRun : SignalQueue :=
  (runQueueOps (fun _ => none) (signal_queue_create 1)
    [QueueOp.enqueue 1, QueueOp.enqueue 2]).2

/-- Concrete full capacity-1 mailbox for the overflow branch of the
enqueue witness. -/
def fullQueue1 : SignalQueue :=
  { signal_queue_create 1 with count := 1, tail := 1 }

/-- Concrete guard accepting only signals whose payload size exceeds
10; used by the dispatch witness. -/
def lowGuard : Guard := fun _ s => if 10 < s.payload_size then 1 else 0

/-- Concrete handler adding the payload size to the agent state. -/
def addSizeHandler : Handler := fun st s => (0, st + s.payload_size)

/-- Concrete default handler that always fails (non-zero status). -/
def failDefault : Handler := fun st _ => (1, st + 2)

def guardEntry : DispatchEntry :=
  { frequency_id := 9, active := true, has_guard := true,
    handler := addSizeHandler, guard := some lowGuard }

def guardTable : DispatchTable :=
  { entries := [guardEntry], capacity := 4, default_handler := none,
    agent_state := 0, agent_id := 1, lookup_count := 0, hit_count := 0,
    miss_count := 0 }

def emptyTable : DispatchTable :=
  { entries := [], capacity := 4, default_handler := none,
    agent_state := 0, agent_id := 2, lookup_count := 0, hit_count := 0,
    miss_count := 0 }

def defaultTable : DispatchTable :=
  { emptyTable with default_handler := some failDefault }

def sigLow : Signal :=
  { frequency_id := 9, source_agent_id := 1, flags := 2, ref_count := 1,
    payload := [], payload_size := 5, payload_capacity := 0, timestamp := 0 }

def sigHigh : Signal := { sigLow with payload_size := 15 }

/-- Concrete signal holding the maximal 16-bit reference count, and a
store placing it at address 1 (used by the wrap-around witness). -/
def saturatedSignal : Signal :=
  { frequency_id := 7
    source_agent_id := 1
    flags := 2
    ref_count := 65535
    payload := []
    payload_size := 0
    payload_capacity := 0
    timestamp := 0 }

def saturatedMem : Mem := fun q => if q = 1 then some saturatedSignal else none

/-- All mailboxes of the registry's agents are empty in the given
mailbox store. -/
def allMailboxesEmpty (qm : QMem) (reg : AgentRegistry) : Prop :=
  ∀ i a, reg.agents.getD i none = some a →
    ∀ q, qm a.input_queue = some q → q.count = 0

/-- The live agents of a registry own pairwise distinct mailboxes
(spec: each mailbox is owned by exactly one agent). -/
def livePointersDistinct (reg : AgentRegistry) : Prop :=
  ∀ i j a b, i < reg.count → j < reg.count → i ≠ j →
    reg.agents.getD i none = some a → reg.agents.getD j none = some b →
    a.input_queue ≠ 0 → b.input_queue ≠ 0 → a.input_queue ≠ b.input_queue

/-- Concrete one-agent scheduler fixture: agent 0 holds mailbox 1,
which contains one reference to the signal at address 5; the agent's
dispatch table has an active handler for the signal's kind. -/
def cxSignal : Signal :=
  { frequency_id := 7, source_agent_id := 1, flags := 2, ref_count := 1,
    payload := [], payload_size := 0, payload_capacity := 0, timestamp := 0 }

def cxMem : Mem := fun p => if p = 5 then some cxSignal else none

def cxQueue : SignalQueue :=
  { buffer := fun j => if j = 0 then 5 else 0, capacity := 4, mask := 3,
    head := 0, tail := 1, count := 1, total_enqueued := 1, total_dequeued := 0,
    dropped_count := 0, owner_agent_id := 0, flags := 1, reserved := 0 }

def cxQMem : QMem := fun p => if p = 1 then some cxQueue else none

def cxEntry : DispatchEntry :=
  { frequency_id := 7, active := true, has_guard := false,
    handler := fun st _ => (0, st + 1), guard := none }

def cxTable : DispatchTable :=
  { entries := [cxEntry],
    capacity := 4, default_handler := none, agent_state := 0, agent_id := 0,
    lookup_count := 0, hit_count := 0, miss_count := 0 }

def cxAgent : Agent :=
  { agent_id := 0, agent_type := 0, state_ptr := 0, input_queue := 1,
    dispatch_table := some cxTable, flags := 0, signal_count := 0 }

def cxReg : AgentRegistry :=
  { agents := [some cxAgent], count := 1, capacity := 1 }

def cxSched : Scheduler := scheduler_create cxReg (routing_table_create 4)

/-- Concrete two-agent quiescent network (both mailboxes empty), used
by the quiescence witness. -/
def quiAgentA : Agent :=
  { agent_id := 0, agent_type := 0, state_ptr := 0, input_queue := 21,
    dispatch_table := none, flags := 0, signal_count := 0 }

def quiAgentB : Agent :=
  { agent_id := 1, agent_type := 0, state_ptr := 0, input_queue := 22,
    dispatch_table := none, flags := 0, signal_count := 0 }

def quiReg : AgentRegistry :=
  { agents := [some quiAgentA, some quiAgentB], count := 2, capacity := 2 }

def quiQMem : QMem :=
  fun p => if p = 21 ∨ p = 22 then some (signal_queue_create 4) else none

def quiSched : Scheduler := scheduler_create quiReg (routing_table_create 4)

/-- Concrete routing fixture: a route (source 1, kind 7) with the two
destination mailboxes held at queue addresses 11 and 12. -/
def bcastEntry : RoutingEntry :=
  { source_agent_id := 1, frequency_id := 7, dest_count := 2, flags := 0,
    dest_agent_ids := [2, 3], dest_queues := [11, 12] }

def bcastTable : RoutingTable :=
  { routing_table_create 8 with
    entries := (List.replicate 8 emptyRoutingEntry).set 1 bcastEntry }

def bcastSignal : Signal :=
  { frequency_id := 7, source_agent_id := 1, flags := 2, ref_count := 1,
    payload := [], payload_size := 0, payload_capacity := 0, timestamp := 0 }

def bcastMem : Mem := fun p => if p = 5 then some bcastSignal else none

def bcastQMem : QMem :=
  fun p => if p = 11 ∨ p = 12 then some (signal_queue_create 4) else none

/-- Concrete signal whose (origin, kind) pair has no route in
bcastTable. -/
def missSignal : Signal := { bcastSignal with frequency_id := 9 }

def missMem : Mem := fun p => if p = 5 then some missSignal else none

/-! ## Claim C2: mailbox lifetime invariant -/

theorem signal_queue_create_wf (cap : Nat) (hcap : cap < U32) :
    queueWellFormed (signal_queue_create cap) := by
  unfold queueWellFormed signal_queue_create
  by_cases h : is_power_of_two cap = true <;>
    simp [h, next_power_of_two, U32] at * <;> omega

theorem applyQueueOp_wf (m : Mem) (q : SignalQueue) (op : QueueOp)
    (h : queueWellFormed q) : queueWellFormed (applyQueueOp (m, q) op).2 := by
  obtain ⟨h1, h2, h3, h4, h5⟩ := h
  cases op with
  | enqueue sig =>
    by_cases hsig : sig = 0
    · simpa [applyQueueOp, signal_queue_enqueue, hsig] using ⟨h1, h2, h3, h4, h5⟩
    · by_cases hfull : q.count ≥ q.capacity
      · simpa [applyQueueOp, signal_queue_enqueue, hsig, hfull] using ⟨h1, h2, h3, h4, h5⟩
      · unfold applyQueueOp signal_queue_enqueue queueWellFormed
        simp only [hsig, hfull, if_neg, if_false, ite_false]
        simp only [U32] at *
        refine ⟨by omega, h2, by omega, h4, by omega⟩
  | dequeue =>
    by_cases hempty : q.count = 0
    · simpa [applyQueueOp, signal_queue_dequeue, hempty] using ⟨h1, h2, h3, h4, h5⟩
    · unfold applyQueueOp signal_queue_dequeue queueWellFormed
      simp only [hempty, if_neg, if_false, ite_false]
      simp only [U32] at *
      refine ⟨by omega, h2, h3, by omega, by omega⟩

theorem runQueueOps_wf (ops : List QueueOp) :
    ∀ (m : Mem) (q : SignalQueue), queueWellFormed q →
      queueWellFormed (runQueueOps m q ops).2 := by
  induction ops with
  | nil => intro m q h; exact h
  | cons op ops ih =>
    intro m q h
    have hstep := applyQueueOp_wf m q op h
    have : runQueueOps m q (op :: ops) =
        runQueueOps (applyQueueOp (m, q) op).1 (applyQueueOp (m, q) op).2 ops := rfl
    rw [this]
    exact ih _ _ hstep

/-- Claim C2 counterexample: a capacity-1 mailbox accepting one signal
and dropping a second has count = 1, total_enqueued = 1,
total_dequeued = 0 and dropped = 1, so the claimed equation
total_enqueued - total_dequeued - dropped == count (uint32
arithmetic) computes 0, not 1: drops do not touch total_enqueued. -/
theorem claim_C2_mailbox_invariant_counterexample :
    overflowRun.count = 1 ∧
    overflowRun.total_enqueued = 1 ∧
    overflowRun.total_dequeued = 0 ∧
    overflowRun.dropped_count = 1 ∧
    ((overflowRun.total_enqueued + U32 - overflowRun.total_dequeued) + U32 -
      overflowRun.dropped_count) % U32 ≠ overflowRun.count := by
  refine ⟨rfl, rfl, rfl, rfl, by decide⟩

/-- Claim C2 (amended): for every mailbox freshly created with a
uint32 capacity request, after any finite sequence of enqueue and
dequeue operations, 0 ≤ count ≤ capacity holds and
total_enqueued − total_dequeued == count in uint32 arithmetic (the
spec's extra − dropped term does not belong in the equation: rejected
enqueues bump only dropped_count, never total_enqueued). -/
theorem claim_C2_mailbox_invariant_amended (cap : Nat) (hcap : cap < U32)
    (m : Mem) (ops : List QueueOp) :
    (runQueueOps m (signal_queue_create cap) ops).2.count ≤
      (runQueueOps m (signal_queue_create cap) ops).2.capacity ∧
    ((runQueueOps m (signal_queue_create cap) ops).2.total_enqueued + U32 -
      (runQueueOps m (signal_queue_create cap) ops).2.total_dequeued) % U32 =
      (runQueueOps m (signal_queue_create cap) ops).2.count := by
  have h := runQueueOps_wf ops m (signal_queue_create cap)
    (signal_queue_create_wf cap hcap)
  exact ⟨h.1, h.2.2.2.2⟩

/-- Claim C2 witness: the amended invariant evaluated on the concrete
overflow run of the counterexample. -/
theorem claim_C2_mailbox_invariant_amended_witness :
    (1 : Nat) < U32 ∧
    (overflowRun.count ≤ overflowRun.capacity ∧
    (overflowRun.total_enqueued + U32 - overflowRun.total_dequeued) % U32 =
      overflowRun.count) := by
  exact ⟨by decide, claim_C2_mailbox_invariant_amended 1 (by decide) (fun _ => none)
    [QueueOp.enqueue 1, QueueOp.enqueue 2]⟩

/-! ## Claim C3: enqueue on a full / non-full mailbox -/

/-- Claim C3: on a mailbox with count = capacity, signal_queue_enqueue
increments dropped_count, sets the overflow flag, returns
SIGNAL_ERR_QUEUE_FULL, leaves the signal store (hence the signal's
ref_count) untouched and does not change head, tail, count or
total_enqueued; on a mailbox with count < capacity (with the mask
holding its creation-time value capacity - 1) it writes the reference
at tail &&& (capacity - 1), increments the signal's ref_count modulo
2^16, advances tail, increments count and total_enqueued, and returns
SIGNAL_OK. -/
theorem claim_C3_enqueue_overflow_and_success (m : Mem) (q : SignalQueue)
    (sig : Ptr) (hsig : sig ≠ 0) :
    (q.count = q.capacity →
      (signal_queue_enqueue m q sig).2.2 = SIGNAL_ERR_QUEUE_FULL ∧
      (signal_queue_enqueue m q sig).1 = m ∧
      (signal_queue_enqueue m q sig).2.1.dropped_count = (q.dropped_count + 1) % U32 ∧
      (signal_queue_enqueue m q sig).2.1.flags = q.flags ||| QUEUE_FLAG_OVERFLOW ∧
      (signal_queue_enqueue m q sig).2.1.head = q.head ∧
      (signal_queue_enqueue m q sig).2.1.tail = q.tail ∧
      (signal_queue_enqueue m q sig).2.1.count = q.count ∧
      (signal_queue_enqueue m q sig).2.1.total_enqueued = q.total_enqueued) ∧
    (q.count < q.capacity → q.mask = q.capacity - 1 →
      (signal_queue_enqueue m q sig).2.2 = SIGNAL_OK ∧
      (signal_queue_enqueue m q sig).2.1.buffer (q.tail &&& (q.capacity - 1)) = sig ∧
      (∀ s, m sig = some s →
        (signal_queue_enqueue m q sig).1 sig =
          some { s with ref_count := (s.ref_count + 1) % U16 }) ∧
      (signal_queue_enqueue m q sig).2.1.tail = (q.tail + 1) % U32 ∧
      (signal_queue_enqueue m q sig).2.1.count = (q.count + 1) % U32 ∧
      (signal_queue_enqueue m q sig).2.1.total_enqueued = (q.total_enqueued + 1) % U32) := by
  constructor
  · intro hfull
    have hge : q.count ≥ q.capacity := hfull.ge
    simp [signal_queue_enqueue, hsig, hge]
  · intro hlt hmask
    have hnge : ¬ q.count ≥ q.capacity := not_le.mpr hlt
    refine ⟨by simp [signal_queue_enqueue, hsig, hnge], ?_, ?_, ?_, ?_, ?_⟩
    · simp [signal_queue_enqueue, hsig, hnge, hmask]
    · intro s hs
      simp [signal_queue_enqueue, hsig, hnge, signal_ref_at, hs, memUpdate, signal_ref]
    · simp [signal_queue_enqueue, hsig, hnge]
    · simp [signal_queue_enqueue, hsig, hnge]
    · simp [signal_queue_enqueue, hsig, hnge]

/-- Claim C3 witness: both branches exercised on a concrete mailbox of
capacity 1 and a concrete signal store. -/
theorem claim_C3_enqueue_overflow_and_success_witness :
    (fullQueue1.count = fullQueue1.capacity ∧
     (signal_queue_enqueue (fun _ => none) fullQueue1 5).2.2 = SIGNAL_ERR_QUEUE_FULL ∧
     (signal_queue_enqueue (fun _ => none) fullQueue1 5).2.1.dropped_count = 1) ∧
    ((signal_queue_create 1).count < (signal_queue_create 1).capacity ∧
     (signal_queue_create 1).mask = (signal_queue_create 1).capacity - 1 ∧
     (signal_queue_enqueue (fun _ => none) (signal_queue_create 1) 5).2.2 = SIGNAL_OK ∧
     (signal_queue_enqueue (fun _ => none) (signal_queue_create 1) 5).2.1.buffer
       ((signal_queue_create 1).tail &&& ((signal_queue_create 1).capacity - 1)) = 5) := by
  refine ⟨⟨by decide, ?_, ?_⟩, ⟨by decide, by decide, ?_, ?_⟩⟩
  · exact ((claim_C3_enqueue_overflow_and_success (fun _ => none) fullQueue1 5 (by decide)).1 (by decide)).1
  · exact ((claim_C3_enqueue_overflow_and_success (fun _ => none) fullQueue1 5 (by decide)).1 (by decide)).2.2.1
  · exact ((claim_C3_enqueue_overflow_and_success (fun _ => none) (signal_queue_create 1) 5 (by decide)).2 (by decide) (by decide)).1
  · exact ((claim_C3_enqueue_overflow_and_success (fun _ => none) (signal_queue_create 1) 5 (by decide)).2 (by decide) (by decide)).2.1

/-! ## Claim C6: signal_create size validation and payload copy -/

/-- Claim C6: for a non-null payload pointer, a payload size with
0 < size ≤ MAX_PAYLOAD_SIZE yields a signal with ref_count 1, the
owns_payload flag set, and a payload buffer holding a copy of the
caller's bytes; a size above MAX_PAYLOAD_SIZE fails (NULL result —
the source's payload_too_large rejection is its only oversize path). -/
theorem claim_C6_signal_create_bounds (k o : Nat) (p : List Nat) (sz ts : Nat) :
    (0 < sz → sz ≤ MAX_PAYLOAD_SIZE →
      ∃ s, signal_create k o (some p) sz ts = some s ∧
        s.ref_count = 1 ∧ s.payload = p.take sz ∧ s.payload_size = sz ∧
        s.flags &&& SIGNAL_FLAG_OWNS_PAYLOAD ≠ 0) ∧
    (MAX_PAYLOAD_SIZE < sz → signal_create k o (some p) sz ts = none) := by
  constructor
  · intro hpos hle
    have hngt : ¬ sz > MAX_PAYLOAD_SIZE := not_lt.mpr hle
    have hmain : signal_create k o (some p) sz ts = some
        { frequency_id := k % U16
          source_agent_id := o % U16
          flags := SIGNAL_FLAG_HEAP_ALLOCATED ||| SIGNAL_FLAG_OWNS_PAYLOAD
          ref_count := 1
          payload := p.take sz
          payload_size := sz
          payload_capacity := (sz + 7) &&& 4294967288
          timestamp := ts } := by
      simp [signal_create, hngt, hpos, signal_alloc]
    have hflag : (SIGNAL_FLAG_HEAP_ALLOCATED ||| SIGNAL_FLAG_OWNS_PAYLOAD) &&&
        SIGNAL_FLAG_OWNS_PAYLOAD ≠ 0 := by decide
    exact ⟨_, hmain, rfl, rfl, rfl, hflag⟩
  · intro hgt
    simp [signal_create, hgt]

/-- Claim C6 witness: payload size exactly MAX_PAYLOAD_SIZE succeeds
and MAX_PAYLOAD_SIZE + 1 fails, at concrete inputs. -/
theorem claim_C6_signal_create_bounds_witness :
    (0 < 65536 ∧ 65536 ≤ MAX_PAYLOAD_SIZE ∧
      ∃ s, signal_create 3 4 (some [1, 2, 3]) 65536 0 = some s ∧
        s.ref_count = 1 ∧ s.payload = List.take 65536 [1, 2, 3] ∧ s.payload_size = 65536 ∧
        s.flags &&& SIGNAL_FLAG_OWNS_PAYLOAD ≠ 0) ∧
    (MAX_PAYLOAD_SIZE < 65537 ∧ signal_create 3 4 (some [1, 2, 3]) 65537 0 = none) := by
  refine ⟨⟨by decide, by decide, ?_⟩, ⟨by decide, ?_⟩⟩
  · exact (claim_C6_signal_create_bounds 3 4 [1, 2, 3] 65536 0).1 (by decide) (by decide)
  · exact (claim_C6_signal_create_bounds 3 4 [1, 2, 3] 65537 0).2 (by decide)

/-! ## Claim C8: enqueue-then-dequeue round trip on an empty mailbox -/

/-- Claim C8: on an empty mailbox (count 0, and head = tail as every
reachable empty mailbox has), enqueue followed by dequeue returns the
very signal reference that was enqueued, and the lifetime counters
total_enqueued and total_dequeued each advance by exactly one. -/
theorem claim_C8_roundtrip (m : Mem) (q : SignalQueue) (sig : Ptr)
    (hsig : sig ≠ 0) (hcount : q.count = 0) (hht : q.head = q.tail)
    (hcap : 0 < q.capacity) :
    (signal_queue_enqueue m q sig).2.2 = SIGNAL_OK ∧
    (signal_queue_dequeue (signal_queue_enqueue m q sig).2.1).2 = sig ∧
    (signal_queue_dequeue (signal_queue_enqueue m q sig).2.1).1.total_enqueued =
      (q.total_enqueued + 1) % U32 ∧
    (signal_queue_dequeue (signal_queue_enqueue m q sig).2.1).1.total_dequeued =
      (q.total_dequeued + 1) % U32 := by
  have hnge : ¬ q.count ≥ q.capacity := by omega
  have hone : (q.count + 1) % U32 = 1 := by
    rw [hcount]
    decide
  have hne : (q.count + 1) % U32 ≠ 0 := by omega
  refine ⟨by simp [signal_queue_enqueue, hsig, hnge], ?_, ?_, ?_⟩
  · simp [signal_queue_enqueue, hsig, hnge, signal_queue_dequeue, hne, hht]
  · simp [signal_queue_enqueue, hsig, hnge, signal_queue_dequeue, hne]
  · simp [signal_queue_enqueue, hsig, hnge, signal_queue_dequeue, hne]

/-- Claim C8 witness: the round trip on a concrete empty mailbox of
capacity 4 and the signal reference 5. -/
theorem claim_C8_roundtrip_witness :
    (signal_queue_enqueue (fun _ => none) (signal_queue_create 4) 5).2.2 = SIGNAL_OK ∧
    (signal_queue_dequeue (signal_queue_enqueue (fun _ => none) (signal_queue_create 4) 5).2.1).2 = 5 ∧
    (signal_queue_dequeue (signal_queue_enqueue (fun _ => none) (signal_queue_create 4) 5).2.1).1.total_enqueued = 1 ∧
    (signal_queue_dequeue (signal_queue_enqueue (fun _ => none) (signal_queue_create 4) 5).2.1).1.total_dequeued = 1 := by
  have h := claim_C8_roundtrip (fun _ => none) (signal_queue_create 4) 5
    (by decide) (by decide) (by decide) (by decide)
  exact ⟨h.1, h.2.1, h.2.2.1, h.2.2.2⟩

/-! ## Claim C4: dispatch result codes -/

/-- Claim C4: dispatch_invoke_with_state (on a non-null table and
signal) returns no_handler iff no active entry matches the signal's
kind and no default handler is installed; when no entry matches but a
default exists it calls the default and returns handler_failed iff the
default returned non-zero (else ok), the state being the default's
result; when the matching entry has a guard that returns zero it
returns guard_failed with the agent state untouched (the handler never
ran); otherwise it calls the entry's handler and returns
handler_failed iff the handler returned non-zero (else ok), the state
being the handler's result. -/
theorem claim_C4_dispatch_result_codes (t : DispatchTable) (st : AgentState) (s : Signal) :
    ((dispatch_invoke_with_state (some t) st (some s)).1 = DispatchCode.no_handler ↔
      ((∀ e ∈ t.entries, ¬(e.active = true ∧ e.frequency_id = s.frequency_id)) ∧
        t.default_handler = none)) ∧
    (∀ dh, dispatch_lookup_entry t s.frequency_id = none → t.default_handler = some dh →
      (((dh st s).1 ≠ 0 →
        (dispatch_invoke_with_state (some t) st (some s)).1 = DispatchCode.handler_failed) ∧
       ((dh st s).1 = 0 →
        (dispatch_invoke_with_state (some t) st (some s)).1 = DispatchCode.ok) ∧
       (dispatch_invoke_with_state (some t) st (some s)).2.1 = (dh st s).2)) ∧
    (∀ e g, dispatch_lookup_entry t s.frequency_id = some e →
      e.has_guard = true → e.guard = some g → g st s = 0 →
      (dispatch_invoke_with_state (some t) st (some s)).1 = DispatchCode.guard_failed ∧
      (dispatch_invoke_with_state (some t) st (some s)).2.1 = st) ∧
    (∀ e, dispatch_lookup_entry t s.frequency_id = some e →
      ¬(e.has_guard = true ∧ ∃ g, e.guard = some g ∧ g st s = 0) →
      (((e.handler st s).1 ≠ 0 →
        (dispatch_invoke_with_state (some t) st (some s)).1 = DispatchCode.handler_failed) ∧
       ((e.handler st s).1 = 0 →
        (dispatch_invoke_with_state (some t) st (some s)).1 = DispatchCode.ok) ∧
       (dispatch_invoke_with_state (some t) st (some s)).2.1 = (e.handler st s).2)) := by
  have hlkupd : ∀ x, dispatch_lookup_entry { t with lookup_count := x } s.frequency_id =
      dispatch_lookup_entry t s.frequency_id := fun _ => rfl
  have hnone : dispatch_lookup_entry t s.frequency_id = none ↔
      (∀ e ∈ t.entries, ¬(e.active = true ∧ e.frequency_id = s.frequency_id)) := by
    unfold dispatch_lookup_entry
    rw [List.find?_eq_none]
    constructor
    · intro h e he
      have := h e he
      simp only [Bool.and_eq_true, beq_iff_eq, not_and] at this ⊢
      exact this
    · intro h e he
      have := h e he
      simp only [Bool.and_eq_true, beq_iff_eq, not_and] at this ⊢
      exact this
  rcases hfind : dispatch_lookup_entry t s.frequency_id with _ | e
  · by_cases hdefn : t.default_handler = none
    · have hr : dispatch_invoke_with_state (some t) st (some s) =
          (DispatchCode.no_handler, st,
            some { t with lookup_count := (t.lookup_count + 1) % U32,
                          miss_count := (t.miss_count + 1) % U32 }) := by
        simp only [dispatch_invoke_with_state]
        rw [hlkupd, hfind]
        simp [hdefn]
      refine ⟨?_, ?_, ?_, ?_⟩
      · rw [hr]
        exact ⟨fun _ => ⟨hnone.mp hfind, hdefn⟩, fun _ => rfl⟩
      · intro dh h1 h2
        rw [hdefn] at h2
        exact absurd h2 (by simp)
      · intro e2 g2 h1
        exact absurd h1 (by simp)
      · intro e2 h1
        exact absurd h1 (by simp)
    · obtain ⟨dh, hdef⟩ := Option.ne_none_iff_exists'.mp hdefn
      have hr : dispatch_invoke_with_state (some t) st (some s) =
          (if (dh st s).1 ≠ 0 then DispatchCode.handler_failed else DispatchCode.ok,
           (dh st s).2,
            some { t with lookup_count := (t.lookup_count + 1) % U32,
                          miss_count := (t.miss_count + 1) % U32 }) := by
        simp only [dispatch_invoke_with_state]
        rw [hlkupd, hfind]
        by_cases hz : (dh st s).1 = 0 <;> simp [hdef, hz]
      refine ⟨?_, ?_, ?_, ?_⟩
      · rw [hr]
        by_cases hz : (dh st s).1 = 0 <;> simp [hz, hdef]
      · intro dh2 h1 h2
        have h3 := hdef.symm.trans h2
        injection h3 with h3e
        subst h3e
        rw [hr]
        refine ⟨fun hnz => by simp [hnz], fun hz => by simp [hz], rfl⟩
      · intro e2 g2 h1
        exact absurd h1 (by simp)
      · intro e2 h1
        exact absurd h1 (by simp)
  · by_cases hgr : e.has_guard = true ∧ ∃ g, e.guard = some g ∧ g st s = 0
    · obtain ⟨hhg, g, hg, hg0⟩ := hgr
      have hr : dispatch_invoke_with_state (some t) st (some s) =
          (DispatchCode.guard_failed, st,
            some { t with lookup_count := (t.lookup_count + 1) % U32,
                          hit_count := (t.hit_count + 1) % U32 }) := by
        simp only [dispatch_invoke_with_state]
        rw [hlkupd, hfind]
        simp [hhg, hg, hg0]
      refine ⟨?_, ?_, ?_, ?_⟩
      · rw [hr]
        refine ⟨fun h => absurd h (by simp), fun hall => absurd (hnone.mpr hall.1) ?_⟩
        simp [hfind]
      · intro dh h1 h2
        exact absurd h1 (by simp)
      · intro e2 g2 h1 h2 h3 h4
        injection h1 with h1e
        subst h1e
        rw [hr]
        exact ⟨rfl, rfl⟩
      · intro e2 h1 h2
        injection h1 with h1e
        subst h1e
        exact absurd ⟨hhg, g, hg, hg0⟩ h2
    · have hnorej :
          (if e.has_guard then
            match e.guard with
            | some g => decide (g st s = 0)
            | none => false
          else false) = false := by
        by_cases hhg : e.has_guard = true
        · cases hg : e.guard with
          | none => simp [hhg, hg]
          | some g =>
            have hne : g st s ≠ 0 := fun h0 => hgr ⟨hhg, g, hg, h0⟩
            simp [hhg, hg, hne]
        · simp at hhg
          simp [hhg]
      have hr : dispatch_invoke_with_state (some t) st (some s) =
          (if (e.handler st s).1 ≠ 0 then DispatchCode.handler_failed else DispatchCode.ok,
           (e.handler st s).2,
            some { t with lookup_count := (t.lookup_count + 1) % U32,
                          hit_count := (t.hit_count + 1) % U32 }) := by
        simp only [dispatch_invoke_with_state]
        rw [hlkupd, hfind]
        simp only [hnorej]
        by_cases hz : (e.handler st s).1 = 0 <;> simp [hz]
      refine ⟨?_, ?_, ?_, ?_⟩
      · rw [hr]
        refine ⟨fun h => ?_, fun hall => absurd (hnone.mpr hall.1) (by simp [hfind])⟩
        by_cases hz : (e.handler st s).1 = 0 <;> simp [hz] at h
      · intro dh h1 h2
        exact absurd h1 (by simp)
      · intro e2 g2 h1 h2 h3 h4
        injection h1 with h1e
        subst h1e
        exact absurd ⟨h2, g2, h3, h4⟩ hgr
      · intro e2 h1 h2
        injection h1 with h1e
        subst h1e
        rw [hr]
        refine ⟨fun hnz => by simp [hnz], fun hz => by simp [hz], rfl⟩

/-- Claim C4 witness: every dispatch outcome exercised at concrete
inputs — guard rejection (payload 5), handler run (payload 15),
no_handler on an empty table, and a failing default handler. -/
theorem claim_C4_dispatch_result_codes_witness :
    ((dispatch_invoke_with_state (some guardTable) 0 (some sigLow)).1 =
      DispatchCode.guard_failed ∧
     (dispatch_invoke_with_state (some guardTable) 0 (some sigLow)).2.1 = 0) ∧
    ((dispatch_invoke_with_state (some guardTable) 0 (some sigHigh)).1 =
      DispatchCode.ok ∧
     (dispatch_invoke_with_state (some guardTable) 0 (some sigHigh)).2.1 = 15) ∧
    (dispatch_invoke_with_state (some emptyTable) 0 (some sigLow)).1 =
      DispatchCode.no_handler ∧
    (dispatch_invoke_with_state (some defaultTable) 0 (some sigLow)).1 =
      DispatchCode.handler_failed := by
  refine ⟨?_, ⟨?_, ?_⟩, ?_, ?_⟩
  · exact (claim_C4_dispatch_result_codes guardTable 0 sigLow).2.2.1 guardEntry lowGuard
      rfl rfl rfl (by simp [lowGuard, sigLow])
  · refine ((claim_C4_dispatch_result_codes guardTable 0 sigHigh).2.2.2 guardEntry rfl
      ?_).2.1 (by simp [guardEntry, addSizeHandler])
    rintro ⟨-, g, hg, h0⟩
    injection hg with hge
    subst hge
    simp [lowGuard, sigHigh, sigLow] at h0
  · refine ((claim_C4_dispatch_result_codes guardTable 0 sigHigh).2.2.2 guardEntry rfl
      ?_).2.2
    rintro ⟨-, g, hg, h0⟩
    injection hg with hge
    subst hge
    simp [lowGuard, sigHigh, sigLow] at h0
  · exact (claim_C4_dispatch_result_codes emptyTable 0 sigLow).1.mpr (by simp [emptyTable])
  · exact ((claim_C4_dispatch_result_codes defaultTable 0 sigLow).2.1 failDefault
      rfl rfl).1 (by simp [failDefault])

/-! ## Claim C5: routing_broadcast deliveries and the broadcast flag -/

theorem broadcastStep_delivered (agents : Option AgentRegistry) (sig : Ptr)
    (st : QMem × Mem × RoutingEntry × Nat) (i : Nat) :
    (broadcastStep agents sig st i).2.2.2 = st.2.2.2 ∨
    (broadcastStep agents sig st i).2.2.2 = st.2.2.2 + 1 := by
  obtain ⟨qm, m, entry, d⟩ := st
  by_cases h0 : (broadcastResolve agents entry i).1 = 0
  · left
    simp [broadcastStep, h0]
  · cases hq : qm (broadcastResolve agents entry i).1 with
    | none =>
      left
      simp [broadcastStep, h0, hq]
    | some q =>
      by_cases hok : (signal_queue_enqueue m q sig).2.2 = SIGNAL_OK
      · right
        simp [broadcastStep, h0, hq, hok]
      · left
        simp [broadcastStep, h0, hq, hok]

theorem broadcast_fold_delivered (agents : Option AgentRegistry) (sig : Ptr) :
    ∀ (l : List Nat) (st : QMem × Mem × RoutingEntry × Nat),
      (l.foldl (broadcastStep agents sig) st).2.2.2 =
        st.2.2.2 + (spec_broadcast_outcomes agents sig st l).count true := by
  intro l
  induction l with
  | nil => intro st; simp [spec_broadcast_outcomes]
  | cons i is ih =>
    intro st
    rw [List.foldl_cons, ih (broadcastStep agents sig st i)]
    have hcnt : (spec_broadcast_outcomes agents sig st (i :: is)).count true =
        (if (broadcastStep agents sig st i).2.2.2 > st.2.2.2 then 1 else 0) +
        (spec_broadcast_outcomes agents sig (broadcastStep agents sig st i) is).count true := by
      simp [spec_broadcast_outcomes, List.count_cons]
      by_cases hgt : (broadcastStep agents sig st i).2.2.2 > st.2.2.2 <;>
        simp [hgt, Nat.add_comm]
    rw [hcnt]
    rcases broadcastStep_delivered agents sig st i with h | h
    · rw [h]
      simp
    · rw [h]
      simp only [Nat.lt_irrefl, Nat.lt_succ_self, gt_iff_lt, if_pos, if_true]
      omega

theorem signal_ref_at_isSome (m : Mem) (q p : Ptr)
    (h : (m p).isSome = true) : ((signal_ref_at m q) p).isSome = true := by
  unfold signal_ref_at
  by_cases hq : q = 0
  · simpa [hq] using h
  · cases hmq : m q with
    | none => simpa [hq, hmq] using h
    | some s =>
      by_cases hpq : p = q
      · subst hpq
        simp [hq, hmq, memUpdate]
      · simpa [hq, hmq, memUpdate, hpq] using h

theorem signal_queue_enqueue_mem_isSome (m : Mem) (q : SignalQueue)
    (sig p : Ptr) (h : (m p).isSome = true) :
    (((signal_queue_enqueue m q sig).1) p).isSome = true := by
  unfold signal_queue_enqueue
  by_cases hs : sig = 0
  · simpa [hs] using h
  · by_cases hfull : q.count ≥ q.capacity
    · simpa [hs, hfull] using h
    · simpa [hs, hfull] using signal_ref_at_isSome m sig p h

theorem broadcastStep_mem_isSome (agents : Option AgentRegistry) (sig : Ptr)
    (st : QMem × Mem × RoutingEntry × Nat) (i : Nat) (p : Ptr)
    (h : (st.2.1 p).isSome = true) :
    (((broadcastStep agents sig st i).2.1) p).isSome = true := by
  obtain ⟨qm, m, entry, d⟩ := st
  by_cases h0 : (broadcastResolve agents entry i).1 = 0
  · simpa [broadcastStep, h0] using h
  · cases hq : qm (broadcastResolve agents entry i).1 with
    | none => simpa [broadcastStep, h0, hq] using h
    | some q =>
      by_cases hok : (signal_queue_enqueue m q sig).2.2 = SIGNAL_OK <;>
        simpa [broadcastStep, h0, hq, hok] using
          signal_queue_enqueue_mem_isSome m q sig p h

theorem broadcast_fold_mem_isSome (agents : Option AgentRegistry) (sig : Ptr) :
    ∀ (l : List Nat) (st : QMem × Mem × RoutingEntry × Nat) (p : Ptr),
      (st.2.1 p).isSome = true →
      (((l.foldl (broadcastStep agents sig) st).2.1) p).isSome = true := by
  intro l
  induction l with
  | nil => intro st p h; simpa using h
  | cons i is ih =>
    intro st p h
    rw [List.foldl_cons]
    exact ih (broadcastStep agents sig st i) p (broadcastStep_mem_isSome agents sig st i p h)

theorem or_broadcast_flag_ne_zero (a : Nat) :
    (a ||| SIGNAL_FLAG_BROADCAST) &&& SIGNAL_FLAG_BROADCAST ≠ 0 := by
  intro h0
  have hbit : ((a ||| SIGNAL_FLAG_BROADCAST) &&& SIGNAL_FLAG_BROADCAST).testBit 3 = true := by
    simp [Nat.testBit_land, Nat.testBit_lor, SIGNAL_FLAG_BROADCAST]
    exact ⟨Or.inr (by decide), by decide⟩
  rw [h0] at hbit
  simp at hbit

theorem broadcastResolve_dest_count (agents : Option AgentRegistry)
    (entry : RoutingEntry) (i : Nat) :
    (broadcastResolve agents entry i).2.dest_count = entry.dest_count := by
  unfold broadcastResolve
  cases agents with
  | none => rfl
  | some reg =>
    dsimp only
    split <;> rfl

theorem broadcastStep_dest_count (agents : Option AgentRegistry) (sig : Ptr)
    (st : QMem × Mem × RoutingEntry × Nat) (i : Nat) :
    (broadcastStep agents sig st i).2.2.1.dest_count = st.2.2.1.dest_count := by
  obtain ⟨qm, m, entry, d⟩ := st
  by_cases h0 : (broadcastResolve agents entry i).1 = 0
  · simpa [broadcastStep, h0] using broadcastResolve_dest_count agents entry i
  · cases hq : qm (broadcastResolve agents entry i).1 with
    | none => simpa [broadcastStep, h0, hq] using broadcastResolve_dest_count agents entry i
    | some q =>
      by_cases hok : (signal_queue_enqueue m q sig).2.2 = SIGNAL_OK <;>
        simpa [broadcastStep, h0, hq, hok] using broadcastResolve_dest_count agents entry i

theorem broadcast_fold_dest_count (agents : Option AgentRegistry) (sig : Ptr) :
    ∀ (l : List Nat) (st : QMem × Mem × RoutingEntry × Nat),
      ((l.foldl (broadcastStep agents sig) st).2.2.1).dest_count = st.2.2.1.dest_count := by
  intro l
  induction l with
  | nil => intro st; rfl
  | cons i is ih =>
    intro st
    rw [List.foldl_cons, ih (broadcastStep agents sig st i),
      broadcastStep_dest_count]

/-- Claim C5: routing_broadcast on a missing route delivers 0 and
leaves both stores untouched; on a route with more than one
destination the shared signal carries the broadcast flag in the
post-state (every mailbox stores a reference to it, so every consumer
observes the flag); and the returned count equals the number of
destinations whose enqueue succeeded, as recomputed by the spec-side
per-destination outcome list. -/
theorem claim_C5_broadcast_flag_and_deliveries (qm : QMem) (m : Mem)
    (t : RoutingTable) (sig : Ptr) (agents : Option AgentRegistry) (s : Signal)
    (hsig : sig ≠ 0) (hm : m sig = some s) :
    ((routing_get_entry t s.source_agent_id s.frequency_id).1 = none →
      (routing_broadcast qm m t sig agents).2.2.2 = 0 ∧
      (routing_broadcast qm m t sig agents).1 = qm ∧
      (routing_broadcast qm m t sig agents).2.1 = m) ∧
    (∀ ie, (routing_get_entry t s.source_agent_id s.frequency_id).1 = some ie →
      (1 < ie.2.dest_count →
        ∃ s2, (routing_broadcast qm m t sig agents).2.1 sig = some s2 ∧
          s2.flags &&& SIGNAL_FLAG_BROADCAST ≠ 0) ∧
      (routing_broadcast qm m t sig agents).2.2.2 =
        (spec_broadcast_outcomes agents sig (qm, m, ie.2, 0)
          (List.range ie.2.dest_count)).count true) := by
  constructor
  · intro hroute
    simp [routing_broadcast, hsig, hm, hroute]
  · intro ie hroute
    have hfold := broadcast_fold_delivered agents sig (List.range ie.2.dest_count)
      (qm, m, ie.2, 0)
    have hsome := broadcast_fold_mem_isSome agents sig (List.range ie.2.dest_count)
      (qm, m, ie.2, 0) sig (by simp [hm])
    have hdc := broadcast_fold_dest_count agents sig (List.range ie.2.dest_count)
      (qm, m, ie.2, 0)
    obtain ⟨s1, hs1⟩ := Option.isSome_iff_exists.mp hsome
    have hr : routing_broadcast qm m t sig agents =
        (((List.range ie.2.dest_count).foldl (broadcastStep agents sig)
            (qm, m, ie.2, 0)).1,
         (if ((List.range ie.2.dest_count).foldl (broadcastStep agents sig)
              (qm, m, ie.2, 0)).2.2.1.dest_count > 1 then
            match ((List.range ie.2.dest_count).foldl (broadcastStep agents sig)
                (qm, m, ie.2, 0)).2.1 sig with
            | none => ((List.range ie.2.dest_count).foldl (broadcastStep agents sig)
                (qm, m, ie.2, 0)).2.1
            | some s1 => memUpdate (((List.range ie.2.dest_count).foldl
                (broadcastStep agents sig) (qm, m, ie.2, 0)).2.1) sig
                (some { s1 with flags := s1.flags ||| SIGNAL_FLAG_BROADCAST })
          else ((List.range ie.2.dest_count).foldl (broadcastStep agents sig)
            (qm, m, ie.2, 0)).2.1),
         { (routing_get_entry t s.source_agent_id s.frequency_id).2 with
            entries := (routing_get_entry t s.source_agent_id s.frequency_id).2.entries.set
              ie.1 ((List.range ie.2.dest_count).foldl (broadcastStep agents sig)
                (qm, m, ie.2, 0)).2.2.1 },
         ((List.range ie.2.dest_count).foldl (broadcastStep agents sig)
            (qm, m, ie.2, 0)).2.2.2) := by
      simp [routing_broadcast, hsig, hm, hroute]
    constructor
    · intro hmulti
      rw [hr]
      have hcond : ((List.range ie.2.dest_count).foldl (broadcastStep agents sig)
          (qm, m, ie.2, 0)).2.2.1.dest_count > 1 := by
        rw [hdc]; exact hmulti
      simp only [hcond, if_pos, hs1]
      refine ⟨{ s1 with flags := s1.flags ||| SIGNAL_FLAG_BROADCAST }, ?_, ?_⟩
      · simp [memUpdate]
      · exact or_broadcast_flag_ne_zero s1.flags
    · rw [hr]
      simpa using hfold

/-- Claim C5 witness: on the concrete two-destination route the
delivered count is 2 (matching the spec-side outcome list) and the
broadcast flag ends up set on the shared signal; on a signal with no
route the count is 0 and the stores are untouched. -/
theorem claim_C5_broadcast_flag_and_deliveries_witness :
    (routing_get_entry bcastTable 1 7).1 = some (1, bcastEntry) ∧
    1 < bcastEntry.dest_count ∧
    (∃ s2, (routing_broadcast bcastQMem bcastMem bcastTable 5 none).2.1 5 = some s2 ∧
      s2.flags &&& SIGNAL_FLAG_BROADCAST ≠ 0) ∧
    (routing_broadcast bcastQMem bcastMem bcastTable 5 none).2.2.2 =
      (spec_broadcast_outcomes none 5 (bcastQMem, bcastMem, bcastEntry, 0)
        (List.range bcastEntry.dest_count)).count true ∧
    (routing_get_entry bcastTable 1 9).1 = none ∧
    (routing_broadcast bcastQMem missMem bcastTable 5 none).2.2.2 = 0 ∧
    (routing_broadcast bcastQMem missMem bcastTable 5 none).1 = bcastQMem ∧
    (routing_broadcast bcastQMem missMem bcastTable 5 none).2.1 = missMem := by
  have h1 := claim_C5_broadcast_flag_and_deliveries bcastQMem bcastMem bcastTable 5 none
    bcastSignal (by decide) rfl
  have h2 := h1.2 (1, bcastEntry) rfl
  have h3 := claim_C5_broadcast_flag_and_deliveries bcastQMem missMem bcastTable 5 none
    missSignal (by decide) rfl
  have h4 := h3.1 rfl
  exact ⟨rfl, by decide, h2.1 (by decide), h2.2, rfl, h4.1, h4.2.1, h4.2.2⟩

/-! ## Claim C9: dispatch_invoke on a NULL table -/

/-- Claim C9: dispatch_invoke reads the table's cached agent_state
field before any NULL check, so on a NULL table it has no defined
result (a null-pointer dereference, the none outcome of the
embedding), while on any non-null table it is defined; by contrast
dispatch_invoke_with_state on a NULL table returns the null_pointer
status. -/
theorem claim_C9_null_table_dereference :
    (∀ s?, dispatch_invoke none s? = none) ∧
    (∀ st s?, (dispatch_invoke_with_state none st s?).1 = DispatchCode.null_pointer) ∧
    (∀ t s?, ∃ r, dispatch_invoke (some t) s? = some r) := by
  refine ⟨fun s? => rfl, fun st s? => rfl, fun t s? => ⟨_, rfl⟩⟩

/-! ## Claim C10: 16-bit reference-count wrap-around -/

/-- Claim C10: signal_ref does not saturate: on a signal whose 16-bit
ref_count is 65535 it wraps the count to 0, after which a single
signal_free releases the heap-allocated signal's storage (the address
maps to nothing afterwards), regardless of how many holders still
reference it. -/
theorem claim_C10_refcount_wrap (m : Mem) (p : Ptr) (s : Signal)
    (hp : p ≠ 0) (hm : m p = some s) (hrc : s.ref_count = 65535)
    (hheap : s.flags &&& SIGNAL_FLAG_HEAP_ALLOCATED ≠ 0) :
    (signal_ref_at m p) p = some { s with ref_count := 0 } ∧
    (signal_free (signal_ref_at m p) p) p = none := by
  have h1 : (signal_ref_at m p) p = some { s with ref_count := 0 } := by
    simp [signal_ref_at, hp, hm, memUpdate, signal_ref, hrc]
    decide
  refine ⟨h1, ?_⟩
  by_cases howns : s.flags &&& SIGNAL_FLAG_OWNS_PAYLOAD ≠ 0 ∧ s.payload ≠ []
  · simp [signal_free, hp, h1, memUpdate, hheap, howns]
  · simp [signal_free, hp, h1, memUpdate, hheap, howns]

/-- Claim C10 witness: a concrete signal at address 1 with ref_count
65535 wraps to 0 under signal_ref and is then released by a single
signal_free. -/
theorem claim_C10_refcount_wrap_witness :
    (1 : Ptr) ≠ 0 ∧ saturatedMem 1 = some saturatedSignal ∧
    saturatedSignal.ref_count = 65535 ∧
    saturatedSignal.flags &&& SIGNAL_FLAG_HEAP_ALLOCATED ≠ 0 ∧
    (signal_ref_at saturatedMem 1) 1 = some { saturatedSignal with ref_count := 0 } ∧
    (signal_free (signal_ref_at saturatedMem 1) 1) 1 = none := by
  have h := claim_C10_refcount_wrap saturatedMem 1 saturatedSignal
    (by decide) rfl (by decide) (by decide)
  exact ⟨by decide, rfl, by decide, by decide, h.1, h.2⟩

/-! ## Claim C7: scheduler termination by quiescence -/

theorem scheduler_agent_step_empty (reg : AgentRegistry)
    (st : QMem × Mem × Nat × Nat) (i : Nat)
    (hempty : allMailboxesEmpty st.1 reg) :
    (scheduler_agent_step reg st i).2.1 = st.2.1 ∧
    (scheduler_agent_step reg st i).2.2.2 = st.2.2.2 ∧
    ∀ x, (scheduler_agent_step reg st i).1 x = st.1 x := by
  obtain ⟨qm, m, ph, pr⟩ := st
  simp only [scheduler_agent_step]
  cases hag : reg.agents.getD i none with
  | none => exact ⟨rfl, rfl, fun x => rfl⟩
  | some a =>
    dsimp only
    by_cases hptr : a.input_queue = 0
    · rw [if_pos hptr]
      exact ⟨rfl, rfl, fun x => rfl⟩
    · rw [if_neg hptr]
      cases hq : qm a.input_queue with
      | none => exact ⟨rfl, rfl, fun x => rfl⟩
      | some q =>
        dsimp only
        have hc : q.count = 0 := hempty i a hag q hq
        have hdq : signal_queue_dequeue q = (q, 0) := by
          simp [signal_queue_dequeue, hc]
        rw [hdq]
        rw [if_pos rfl]
        refine ⟨rfl, rfl, fun x => ?_⟩
        by_cases hx : x = a.input_queue
        · subst hx
          simp [hq]
        · simp [hx]

theorem allMailboxesEmpty_congr (qm1 qm2 : QMem) (reg : AgentRegistry)
    (h : ∀ x, qm1 x = qm2 x) (hempty : allMailboxesEmpty qm2 reg) :
    allMailboxesEmpty qm1 reg := by
  intro i a ha q hq
  exact hempty i a ha q ((h a.input_queue).symm.trans hq)

theorem cycle_fold_empty (reg : AgentRegistry) (l : List Nat) :
    ∀ (st : QMem × Mem × Nat × Nat), allMailboxesEmpty st.1 reg →
      (l.foldl (scheduler_agent_step reg) st).2.1 = st.2.1 ∧
      (l.foldl (scheduler_agent_step reg) st).2.2.2 = st.2.2.2 ∧
      ∀ x, (l.foldl (scheduler_agent_step reg) st).1 x = st.1 x := by
  induction l with
  | nil => intro st h; exact ⟨rfl, rfl, fun x => rfl⟩
  | cons i is ih =>
    intro st h
    obtain ⟨h1, h2, h3⟩ := scheduler_agent_step_empty reg st i h
    have hnext : allMailboxesEmpty (scheduler_agent_step reg st i).1 reg :=
      allMailboxesEmpty_congr _ _ _ h3 h
    obtain ⟨g1, g2, g3⟩ := ih (scheduler_agent_step reg st i) hnext
    rw [List.foldl_cons]
    exact ⟨g1.trans h1, g2.trans h2, fun x => (g3 x).trans (h3 x)⟩

theorem scheduler_run_cycle_empty (qm : QMem) (m : Mem) (sched : Scheduler)
    (hempty : allMailboxesEmpty qm sched.registry) :
    (scheduler_run_cycle qm m sched).2.1 = m ∧
    (scheduler_run_cycle qm m sched).2.2.2 = 0 ∧
    (∀ x, (scheduler_run_cycle qm m sched).1 x = qm x) ∧
    (scheduler_run_cycle qm m sched).2.2.1.registry = sched.registry ∧
    (scheduler_run_cycle qm m sched).2.2.1.running = sched.running ∧
    (scheduler_run_cycle qm m sched).2.2.1.max_empty_cycles = sched.max_empty_cycles ∧
    (scheduler_run_cycle qm m sched).2.2.1.empty_cycles = sched.empty_cycles + 1 ∧
    (scheduler_run_cycle qm m sched).2.2.1.cycle_count = (sched.cycle_count + 1) % U64 ∧
    (scheduler_run_cycle qm m sched).2.2.1.total_signals_processed =
      sched.total_signals_processed % U64 := by
  obtain ⟨h1, h2, h3⟩ := cycle_fold_empty sched.registry
    (List.range sched.registry.count) (qm, m, PHASE_REST, 0) hempty
  refine ⟨by simpa [scheduler_run_cycle] using h1,
    by simpa [scheduler_run_cycle] using h2, ?_, rfl, ?_, ?_, ?_, ?_, ?_⟩
  · intro x
    simpa [scheduler_run_cycle] using h3 x
  · simp [scheduler_run_cycle]
  · simp [scheduler_run_cycle]
  · simp [scheduler_run_cycle, h2]
  · simp [scheduler_run_cycle]
  · simp [scheduler_run_cycle, h2]

theorem scheduler_loop_quiescent (k : Nat) :
    ∀ (qm : QMem) (m : Mem) (sched : Scheduler) (fuel : Nat),
      allMailboxesEmpty qm sched.registry →
      sched.running ≠ 0 →
      sched.empty_cycles + k = sched.max_empty_cycles →
      1 ≤ k → k ≤ fuel →
      sched.total_signals_processed < U64 →
      (scheduler_run_loop qm m sched fuel).2.1 = m ∧
      (scheduler_run_loop qm m sched fuel).2.2.total_signals_processed =
        sched.total_signals_processed ∧
      (scheduler_run_loop qm m sched fuel).2.2.cycle_count =
        (sched.cycle_count + k) % U64 ∧
      (scheduler_run_loop qm m sched fuel).2.2.empty_cycles =
        sched.max_empty_cycles := by
  induction k with
  | zero => intro qm m sched fuel _ _ _ hk; omega
  | succ n ih =>
    intro qm m sched fuel hempty hrun heq hk hfuel htot
    obtain ⟨c1, c2, c3, c4, c5, c6, c7, c8, c9⟩ :=
      scheduler_run_cycle_empty qm m sched hempty
    cases fuel with
    | zero => omega
    | succ f =>
      have hloop : scheduler_run_loop qm m sched (f + 1) =
          if (scheduler_run_cycle qm m sched).2.2.1.max_empty_cycles ≤
              (scheduler_run_cycle qm m sched).2.2.1.empty_cycles then
            ((scheduler_run_cycle qm m sched).1,
             (scheduler_run_cycle qm m sched).2.1,
             (scheduler_run_cycle qm m sched).2.2.1)
          else scheduler_run_loop (scheduler_run_cycle qm m sched).1
            (scheduler_run_cycle qm m sched).2.1
            (scheduler_run_cycle qm m sched).2.2.1 f := by
        simp [scheduler_run_loop, hrun]
      by_cases hlast : n = 0
      · subst hlast
        have hterm : (scheduler_run_cycle qm m sched).2.2.1.max_empty_cycles ≤
            (scheduler_run_cycle qm m sched).2.2.1.empty_cycles := by
          rw [c6, c7]; omega
        rw [hloop, if_pos hterm]
        refine ⟨c1, ?_, ?_, ?_⟩
        · rw [c9, Nat.mod_eq_of_lt htot]
        · rw [c8]
        · rw [c7]; omega
      · have hcont : ¬ ((scheduler_run_cycle qm m sched).2.2.1.max_empty_cycles ≤
            (scheduler_run_cycle qm m sched).2.2.1.empty_cycles) := by
          rw [c6, c7]; omega
        rw [hloop, if_neg hcont]
        have hemptyN : allMailboxesEmpty (scheduler_run_cycle qm m sched).1
            (scheduler_run_cycle qm m sched).2.2.1.registry := by
          rw [c4]
          exact allMailboxesEmpty_congr _ _ _ c3 hempty
        have hrunN : (scheduler_run_cycle qm m sched).2.2.1.running ≠ 0 := by
          rw [c5]; exact hrun
        have heqN : (scheduler_run_cycle qm m sched).2.2.1.empty_cycles + n =
            (scheduler_run_cycle qm m sched).2.2.1.max_empty_cycles := by
          rw [c6, c7]; omega
        have htotN : (scheduler_run_cycle qm m sched).2.2.1.total_signals_processed < U64 := by
          rw [c9]; exact Nat.lt_of_le_of_lt (Nat.mod_le _ _) htot
        obtain ⟨g1, g2, g3, g4⟩ := ih (scheduler_run_cycle qm m sched).1
          (scheduler_run_cycle qm m sched).2.1
          (scheduler_run_cycle qm m sched).2.2.1 f hemptyN hrunN heqN
          (by omega) (by omega) htotN
        refine ⟨g1.trans c1, ?_, ?_, ?_⟩
        · rw [g2, c9, Nat.mod_eq_of_lt htot]
        · rw [g3, c8, Nat.mod_add_mod]
          congr 1
          omega
        · rw [g4, c6]

/-- Claim C7: scheduler_run terminates when running has been cleared
(immediately, any fuel) or when empty_cycles reaches max_empty_cycles
(default 10, set by scheduler_create); in particular on a network
whose agents all have empty mailboxes it returns after exactly
max_empty_cycles cycles — at most max_empty_cycles + 1 — with zero
signals processed. -/
theorem claim_C7_scheduler_quiescence (qm : QMem) (m : Mem) (sched : Scheduler)
    (fuel : Nat) :
    (sched.running = 0 → scheduler_run_loop qm m sched fuel = (qm, m, sched)) ∧
    (∀ reg rt, (scheduler_create reg rt).max_empty_cycles = 10) ∧
    (allMailboxesEmpty qm sched.registry → sched.running ≠ 0 →
      sched.empty_cycles = 0 → 1 ≤ sched.max_empty_cycles →
      sched.max_empty_cycles ≤ fuel →
      sched.total_signals_processed < U64 →
      (scheduler_run_loop qm m sched fuel).2.1 = m ∧
      (scheduler_run_loop qm m sched fuel).2.2.total_signals_processed =
        sched.total_signals_processed ∧
      (scheduler_run_loop qm m sched fuel).2.2.cycle_count =
        (sched.cycle_count + sched.max_empty_cycles) % U64 ∧
      (scheduler_run_loop qm m sched fuel).2.2.empty_cycles =
        sched.max_empty_cycles) := by
  refine ⟨?_, fun reg rt => rfl, ?_⟩
  · intro hrun
    cases fuel with
    | zero => rfl
    | succ f => simp [scheduler_run_loop, hrun]
  · intro hempty hrun hzero hmax hfuel htot
    exact scheduler_loop_quiescent sched.max_empty_cycles qm m sched fuel
      hempty hrun (by omega) hmax hfuel htot

/-- Claim C7 witness: the concrete two-agent network with empty
mailboxes reaches quiescence within fuel 10, with zero signals
processed and exactly 10 cycles run. -/
theorem claim_C7_scheduler_quiescence_witness :
    (scheduler_run_loop quiQMem cxMem quiSched 10).2.1 = cxMem ∧
    (scheduler_run_loop quiQMem cxMem quiSched 10).2.2.total_signals_processed = 0 ∧
    (scheduler_run_loop quiQMem cxMem quiSched 10).2.2.cycle_count = 10 % U64 ∧
    (scheduler_run_loop quiQMem cxMem quiSched 10).2.2.empty_cycles = 10 := by
  have hempty : allMailboxesEmpty quiQMem quiSched.registry := by
    intro i a ha q hq
    match i with
    | 0 =>
      have ha2 : a = quiAgentA := by simpa [quiSched, scheduler_create, quiReg] using ha.symm
      subst ha2
      have hq2 : signal_queue_create 4 = q := by
        simpa [quiQMem, quiAgentA] using hq
      rw [← hq2]
      rfl
    | 1 =>
      have ha2 : a = quiAgentB := by simpa [quiSched, scheduler_create, quiReg] using ha.symm
      subst ha2
      have hq2 : signal_queue_create 4 = q := by
        simpa [quiQMem, quiAgentB] using hq
      rw [← hq2]
      rfl
    | n + 2 =>
      exact absurd ha (by simp [quiSched, scheduler_create, quiReg, List.getD])
  have h := (claim_C7_scheduler_quiescence quiQMem cxMem quiSched 10).2.2
    hempty (by decide) rfl (by decide) (by decide) (by decide)
  exact ⟨h.1, h.2.1, h.2.2.1, h.2.2.2⟩

/-! ## Claim C1: what one scheduler cycle does per agent -/

theorem scheduler_agent_step_preserves (reg : AgentRegistry)
    (st : QMem × Mem × Nat × Nat) (i : Nat) (p : Ptr)
    (h : ∀ a, reg.agents.getD i none = some a →
      a.input_queue = 0 ∨ a.input_queue ≠ p) :
    (scheduler_agent_step reg st i).1 p = st.1 p := by
  obtain ⟨qm, m, ph, pr⟩ := st
  simp only [scheduler_agent_step]
  cases hag : reg.agents.getD i none with
  | none => rfl
  | some a =>
    dsimp only
    rcases h a hag with hptr | hne
    · rw [if_pos hptr]
    · by_cases hptr : a.input_queue = 0
      · rw [if_pos hptr]
      · rw [if_neg hptr]
        cases hq : qm a.input_queue with
        | none => rfl
        | some q =>
          dsimp only
          by_cases hz : (signal_queue_dequeue q).2 = 0
          · rw [if_pos hz]
            simp [Ne.symm hne]
          · rw [if_neg hz]
            simp [Ne.symm hne]

theorem cycle_fold_preserves (reg : AgentRegistry) (p : Ptr) :
    ∀ (l : List Nat) (st : QMem × Mem × Nat × Nat),
      (∀ i ∈ l, ∀ a, reg.agents.getD i none = some a →
        a.input_queue = 0 ∨ a.input_queue ≠ p) →
      (l.foldl (scheduler_agent_step reg) st).1 p = st.1 p := by
  intro l
  induction l with
  | nil => intro st h; rfl
  | cons i is ih =>
    intro st h
    rw [List.foldl_cons]
    have h1 := scheduler_agent_step_preserves reg st i p
      (h i (List.mem_cons_self i is))
    have h2 := ih (scheduler_agent_step reg st i)
      (fun j hj => h j (List.mem_cons_of_mem i hj))
    exact h2.trans h1

theorem scheduler_agent_step_dequeues (reg : AgentRegistry)
    (st : QMem × Mem × Nat × Nat) (i : Nat) (a : Agent) (q : SignalQueue)
    (hag : reg.agents.getD i none = some a) (hptr : a.input_queue ≠ 0)
    (hq : st.1 a.input_queue = some q) :
    (scheduler_agent_step reg st i).1 a.input_queue =
      some (signal_queue_dequeue q).1 := by
  obtain ⟨qm, m, ph, pr⟩ := st
  have hq2 : qm a.input_queue = some q := hq
  simp only [scheduler_agent_step]
  rw [hag]
  dsimp only
  rw [if_neg hptr]
  rw [hq2]
  dsimp only
  by_cases hz : (signal_queue_dequeue q).2 = 0
  · rw [if_pos hz]
    simp
  · rw [if_neg hz]
    simp

theorem scheduler_agent_step_frees (reg : AgentRegistry)
    (st : QMem × Mem × Nat × Nat) (i : Nat) :
    ((scheduler_agent_step reg st i).2.1 = st.2.1 ∧
     (scheduler_agent_step reg st i).2.2.2 = st.2.2.2) ∨
    (∃ sig, sig ≠ 0 ∧
      (scheduler_agent_step reg st i).2.1 = signal_free st.2.1 sig ∧
      (scheduler_agent_step reg st i).2.2.2 = st.2.2.2 + 1) := by
  obtain ⟨qm, m, ph, pr⟩ := st
  simp only [scheduler_agent_step]
  cases hag : reg.agents.getD i none with
  | none => exact Or.inl ⟨rfl, rfl⟩
  | some a =>
    dsimp only
    by_cases hptr : a.input_queue = 0
    · rw [if_pos hptr]
      exact Or.inl ⟨rfl, rfl⟩
    · rw [if_neg hptr]
      cases hq : qm a.input_queue with
      | none => exact Or.inl ⟨rfl, rfl⟩
      | some q =>
        dsimp only
        by_cases hz : (signal_queue_dequeue q).2 = 0
        · rw [if_pos hz]
          exact Or.inl ⟨rfl, rfl⟩
        · rw [if_neg hz]
          exact Or.inr ⟨(signal_queue_dequeue q).2, hz, rfl, rfl⟩

theorem cycle_fold_frees (reg : AgentRegistry) :
    ∀ (l : List Nat) (st : QMem × Mem × Nat × Nat),
      ∃ ps : List Ptr, (∀ p ∈ ps, p ≠ 0) ∧
        (l.foldl (scheduler_agent_step reg) st).2.1 =
          ps.foldl signal_free st.2.1 ∧
        (l.foldl (scheduler_agent_step reg) st).2.2.2 = st.2.2.2 + ps.length := by
  intro l
  induction l with
  | nil => intro st; exact ⟨[], by simp, rfl, by simp⟩
  | cons i is ih =>
    intro st
    rw [List.foldl_cons]
    obtain ⟨ps, hps, hm, hn⟩ := ih (scheduler_agent_step reg st i)
    rcases scheduler_agent_step_frees reg st i with ⟨e1, e2⟩ | ⟨sig, hsig, e1, e2⟩
    · exact ⟨ps, hps, by rw [hm, e1], by rw [hn, e2]⟩
    · refine ⟨sig :: ps, ?_, ?_, ?_⟩
      · intro p hp
        rcases List.mem_cons.mp hp with hp | hp
        · subst hp; exact hsig
        · exact hps p hp
      · rw [hm, e1, List.foldl_cons]
      · rw [hn, e2, List.length_cons]
        omega

/-- Claim C1 counterexample: in the concrete one-agent network whose
mailbox holds one signal, the cycle does dequeue and release the
signal (processed = 1, the heap slot of the lone-reference signal is
gone), yet the agent's dispatch table is left with lookup_count = 0 —
whereas any invocation of the dispatch machinery on that table would
have bumped lookup_count to 1. The cycle therefore does not invoke the
dispatch table (the call in scheduler.c is commented-out scaffolding),
contradicting the claim as stated. -/
theorem claim_C1_scheduler_cycle_counterexample :
    (scheduler_run_cycle cxQMem cxMem cxSched).2.2.2 = 1 ∧
    (scheduler_run_cycle cxQMem cxMem cxSched).2.1 5 = none ∧
    (scheduler_run_cycle cxQMem cxMem cxSched).2.2.1.registry = cxReg ∧
    Option.map DispatchTable.lookup_count
      (Option.bind (cxReg.agents.getD 0 none) Agent.dispatch_table) = some 0 ∧
    Option.map DispatchTable.lookup_count
      (dispatch_invoke_with_state (some cxTable) 0 (some cxSignal)).2.2 = some 1 := by
  refine ⟨rfl, rfl, rfl, rfl, rfl⟩

/-- Claim C1 (amended): during one scheduler cycle, for every live
agent visited in agent-id order (the live agents owning pairwise
distinct mailboxes), the scheduler dequeues at most one signal from
that agent's mailbox — the mailbox after the cycle is exactly one
signal_queue_dequeue step from its prior state, which on an empty
mailbox changes nothing — and whenever a signal is dequeued the
scheduler releases the caller reference with signal_free WITHOUT
invoking the agent's dispatch table (the registry, and with it every
dispatch table, is untouched; the dispatch_invoke call in the source
is commented-out scaffolding): the signal store after the cycle is the
fold of signal_free over the dequeued (non-null) references, whose
number is the returned count. -/
theorem claim_C1_scheduler_cycle_amended (qm : QMem) (m : Mem) (sched : Scheduler)
    (hdist : livePointersDistinct sched.registry) :
    (∀ i a, i < sched.registry.count →
      sched.registry.agents.getD i none = some a → a.input_queue ≠ 0 →
      ∀ q, qm a.input_queue = some q →
      (scheduler_run_cycle qm m sched).1 a.input_queue =
        some (signal_queue_dequeue q).1) ∧
    (scheduler_run_cycle qm m sched).2.2.1.registry = sched.registry ∧
    (∃ ps : List Ptr, (∀ p ∈ ps, p ≠ 0) ∧
      (scheduler_run_cycle qm m sched).2.2.2 = ps.length ∧
      (scheduler_run_cycle qm m sched).2.1 = ps.foldl signal_free m) := by
  refine ⟨?_, rfl, ?_⟩
  · intro i a hi hag hptr q hq
    have hmem : i ∈ List.range sched.registry.count := List.mem_range.mpr hi
    obtain ⟨l1, l2, hsplit⟩ := List.append_of_mem hmem
    have hnd : (List.range sched.registry.count).Nodup := List.nodup_range _
    rw [hsplit] at hnd
    obtain ⟨hnd1, hnd2, hdisj⟩ := List.nodup_append.mp hnd
    have hil2 : i ∉ l2 := (List.nodup_cons.mp hnd2).1
    have hil1 : i ∉ l1 := fun hm1 => hdisj hm1 (List.mem_cons_self i l2)
    have hother : ∀ (l : List Nat), (∀ j ∈ l, j ∈ List.range sched.registry.count ∧ j ≠ i) →
        ∀ j ∈ l, ∀ b, sched.registry.agents.getD j none = some b →
          b.input_queue = 0 ∨ b.input_queue ≠ a.input_queue := by
      intro l hl j hj b hb
      obtain ⟨hjr, hji⟩ := hl j hj
      by_cases hb0 : b.input_queue = 0
      · exact Or.inl hb0
      · exact Or.inr (hdist j i b a (List.mem_range.mp hjr) hi hji hb hag hb0 hptr)
    have hl1mem : ∀ j ∈ l1, j ∈ List.range sched.registry.count ∧ j ≠ i := by
      intro j hj
      refine ⟨by rw [hsplit]; exact List.mem_append_left _ hj, ?_⟩
      intro hji
      subst hji
      exact hil1 hj
    have hl2mem : ∀ j ∈ l2, j ∈ List.range sched.registry.count ∧ j ≠ i := by
      intro j hj
      refine ⟨by rw [hsplit]; exact List.mem_append_right _ (List.mem_cons_of_mem i hj), ?_⟩
      intro hji
      subst hji
      exact hil2 hj
    have hfold : (List.range sched.registry.count).foldl
        (scheduler_agent_step sched.registry) (qm, m, PHASE_REST, 0) =
        l2.foldl (scheduler_agent_step sched.registry)
          (scheduler_agent_step sched.registry
            (l1.foldl (scheduler_agent_step sched.registry) (qm, m, PHASE_REST, 0)) i) := by
      rw [hsplit, List.foldl_append, List.foldl_cons]
    have hmid : (l1.foldl (scheduler_agent_step sched.registry)
        (qm, m, PHASE_REST, 0)).1 a.input_queue = some q := by
      rw [cycle_fold_preserves sched.registry a.input_queue l1 _
        (hother l1 hl1mem)]
      exact hq
    have hstep := scheduler_agent_step_dequeues sched.registry
      (l1.foldl (scheduler_agent_step sched.registry) (qm, m, PHASE_REST, 0)) i a q
      hag hptr hmid
    have hrest := cycle_fold_preserves sched.registry a.input_queue l2
      (scheduler_agent_step sched.registry
        (l1.foldl (scheduler_agent_step sched.registry) (qm, m, PHASE_REST, 0)) i)
      (hother l2 hl2mem)
    show ((List.range sched.registry.count).foldl
      (scheduler_agent_step sched.registry) (qm, m, PHASE_REST, 0)).1 a.input_queue =
      some (signal_queue_dequeue q).1
    rw [hfold, hrest, hstep]
  · obtain ⟨ps, hps, hm, hn⟩ := cycle_fold_frees sched.registry
      (List.range sched.registry.count) (qm, m, PHASE_REST, 0)
    exact ⟨ps, hps, by simpa [scheduler_run_cycle] using hn, by simpa [scheduler_run_cycle] using hm⟩

/-- Claim C1 witness: the amended cycle behaviour evaluated on the
concrete one-agent network — the mailbox is left one dequeue step
on, and the released references are exactly the dequeued signal. -/
theorem claim_C1_scheduler_cycle_amended_witness :
    (scheduler_run_cycle cxQMem cxMem cxSched).1 cxAgent.input_queue =
      some (signal_queue_dequeue cxQueue).1 ∧
    (scheduler_run_cycle cxQMem cxMem cxSched).2.2.1.registry = cxSched.registry ∧
    (∃ ps : List Ptr, (∀ p ∈ ps, p ≠ 0) ∧
      (scheduler_run_cycle cxQMem cxMem cxSched).2.2.2 = ps.length ∧
      (scheduler_run_cycle cxQMem cxMem cxSched).2.1 = ps.foldl signal_free cxMem) := by
  have hdist : livePointersDistinct cxSched.registry := by
    intro i j a b hi hj hij ha hb h0a h0b
    have hc : cxSched.registry.count = 1 := rfl
    rw [hc] at hi hj
    exact absurd (show i = j by omega) hij
  have h := claim_C1_scheduler_cycle_amended cxQMem cxMem cxSched hdist
  exact ⟨h.1 0 cxAgent (by decide) rfl (by decide) cxQueue rfl, h.2.1, h.2.2⟩

end Mycelial
